import Mathlib

/-!
Verification development for the audio transcription/annotation tool
(`src/app.py`).  The Python source is shallowly embedded:

* Python/JSON values that flow through `st.session_state` and the JSON
  editor are modelled by the inductive type `Json` (numbers as `ℚ`).
* Python dictionary/list operations (`.get`, subscript, `.append`,
  truthiness) are modelled by total Lean functions; operations that can
  raise a Python exception return `Except String _`, the `.error` case
  standing for the raised exception.
* `json.dumps` followed by `json.loads` is the identity on
  JSON-serialisable Python values (documented behaviour of the standard
  `json` library); round-trip properties are therefore stated on the
  parsed value level.  A syntactic JSON parser (`json_loads`) embeds
  `json.loads` on raw editor text for the parse-failure paths.
-/

/-- JSON / deserialised Python values (dict, list, str, int/float as `ℚ`,
bool, None), as produced by `json.loads` and held in `st.session_state`. -/
inductive Json where
  | null : Json
  | bool : Bool → Json
  | num : ℚ → Json
  | str : String → Json
  | arr : List Json → Json
  | obj : List (String × Json) → Json

/-- First value bound to key `k` in an association list (Python dict lookup;
`json.loads` keeps the last duplicate key, but the documents built here have
distinct keys, and we model the dicts that arise with unique keys). -/
def lookupKey (k : String) : List (String × Json) → Option Json
  | [] => none
  | (k2, v) :: rest => if k2 = k then some v else lookupKey k rest

/-- Python truthiness of a JSON-shaped value (`if not result.get(..)`,
`if parts:`): `None`, `False`, `0`, `""`, `[]`, `{}` are falsy. -/
def pyFalsy : Json → Bool
  | Json.null => true
  | Json.bool b => !b
  | Json.num q => q == 0
  | Json.str s => s == ""
  | Json.arr xs => xs.isEmpty
  | Json.obj kvs => kvs.isEmpty

/-- Python `d.get(k, default)`: total on dicts, raises `AttributeError`
on any non-dict receiver (lists, strings, numbers have no `.get`). -/
def pyGetD (j : Json) (k : String) (d : Json) : Except String Json :=
  match j with
  | Json.obj kvs =>
      match lookupKey k kvs with
      | some v => Except.ok v
      | none => Except.ok d
  | _ => Except.error "AttributeError: object has no attribute get"

/-- Python `d.get(k)` (default `None`). -/
def pyGet (j : Json) (k : String) : Except String Json :=
  pyGetD j k Json.null

/-- Python `d[k]` on a string key: `KeyError` when missing, `TypeError`
on non-dict receivers. -/
def pySubscript (j : Json) (k : String) : Except String Json :=
  match j with
  | Json.obj kvs =>
      match lookupKey k kvs with
      | some v => Except.ok v
      | none => Except.error ("KeyError: " ++ k)
  | _ => Except.error "TypeError: value is not subscriptable"

/-- Python `xs[i]` on a list with a non-negative index: `IndexError` when out
of range, `TypeError` on non-list receivers. -/
def pyIndex (j : Json) (i : ℕ) : Except String Json :=
  match j with
  | Json.arr xs =>
      match xs.get? i with
      | some v => Except.ok v
      | none => Except.error "IndexError: list index out of range"
  | _ => Except.error "TypeError: value is not indexable"

/-- Python `xs.append(x)`: raises `AttributeError` on non-lists. -/
def pyAppend (j : Json) (x : Json) : Except String Json :=
  match j with
  | Json.arr xs => Except.ok (Json.arr (xs ++ [x]))
  | _ => Except.error "AttributeError: object has no attribute append"

/-! ## Segment extraction (`transcribe_audio_segment_with_gemini`, lines 51-54)

`start_ms = int(float(start_time) * 1000)`, `end_ms = int(float(end_time) * 1000)`,
`segment = audio[start_ms:end_ms]`.  Times are modelled as rationals; Python
`int()` truncates toward zero; the pydub slice `audio[s:e]` is the half-open
interval `[s, e)` on the millisecond timeline with Python slice clamping
(negative indices count from the end of the clip). -/

/-- Python `int()` on a real value: truncation toward zero. -/
def pyIntTrunc (q : ℚ) : ℤ :=
  if q < 0 then Int.ceil q else Int.floor q

/-- `int(float(t) * 1000)` — seconds to whole milliseconds (lines 52-53). -/
def toMilliseconds (t : ℚ) : ℤ :=
  pyIntTrunc (t * 1000)

/-- Python slice-index normalisation against a sequence of length `L`:
negative indices count from the end, indices are clamped to `[0, L]`. -/
def normIndex (L i : ℤ) : ℤ :=
  if i < 0 then max 0 (L + i) else min i L

/-- Duration in ms of `audio[start_ms:end_ms]` for a clip of `L` ms
(line 54): half-open slice on the millisecond timeline. -/
def sliceDurationMs (L start_ms end_ms : ℤ) : ℤ :=
  max 0 (normIndex L end_ms - normIndex L start_ms)

/-! ## Transcription response handling (lines 95-121)

The HTTP response is modelled by its status code, its raw body text
(`response.text`) and, for the 200 path, the parsed body
(`response.json()`).  The function's `return` value is `Option String`
(`none` = Python `None`); the message passed to `st.error`, if any, is
returned alongside.  Exceptions raised inside the `try` block are caught
by `except Exception as e` (line 119) and reported. -/

/-- Python whitespace as stripped by `str.strip()` (ASCII subset; the
Unicode space characters Python also strips do not occur here). -/
def isPySpace (c : Char) : Bool :=
  c == ' ' || c == '\t' || c == '\n' || c == '\r' || c == '\x0b' || c == '\x0c'

/-- Python `s.strip()`: remove leading and trailing whitespace. -/
def pyStrip (s : String) : String :=
  String.mk (((s.data.dropWhile isPySpace).reverse.dropWhile isPySpace).reverse)

/-- Error message for a non-200 status (lines 107-109): the body text is
appended only when non-empty (`if response.text:`). -/
def httpErrMsg (status : ℕ) (bodyText : String) : String :=
  "Gemini API Error: " ++ toString status ++
    (if bodyText = "" then "" else " - " ++ bodyText)

/-- Body of the `try` block from line 95 on, given the response pieces:
returns `(transcription result, st.error message)`; an `Except.error` is a
Python exception escaping to the handler on line 119.  The message on the
no-candidates path (line 98) also interpolates the response dict; we keep the
fixed prefix. -/
def transcribeTryBody (status : ℕ) (bodyText : String) (result : Json) :
    Except String (Option String × Option String) :=
  if status = 200 then do
    let cands ← pyGet result "candidates"
    if pyFalsy cands then
      Except.ok (none, some "Gemini API Error: No candidates returned.")
    else do
      let c0 ← pyIndex cands 0
      let content ← pyGetD c0 "content" (Json.obj [])
      let parts ← pyGetD content "parts" (Json.arr [])
      if pyFalsy parts then
        Except.ok (some "[NO_CONTENT]", none)
      else do
        let p0 ← pyIndex parts 0
        let t ← pyGetD p0 "text" (Json.str "")
        match t with
        | Json.str s => Except.ok (some (pyStrip s), none)
        | _ => Except.error "AttributeError: object has no attribute strip"
  else
    Except.ok (none, some (httpErrMsg status bodyText))

/-- `transcribe_audio_segment_with_gemini` response handling with the
`except Exception` handler (lines 119-121) folded in: any exception from the
body is reported and the function returns `None`. -/
def processResponse (status : ℕ) (bodyText : String) (result : Json) :
    Option String × Option String :=
  match transcribeTryBody status bodyText result with
  | Except.ok r => r
  | Except.error e => (none, some ("Error during transcription: " ++ e))

/-- On-screen notices issued by the caller (`st.info` / `st.warning` /
`st.success` / `st.error`). -/
inductive Notice where
  | info : String → Notice
  | warn : String → Notice
  | ok : String → Notice
  | err : String → Notice

/-- Caller-side handling of the transcription result (lines 371-386): the
sentinel `"[SILENCE]"` stores an empty pending transcript, `"[NOISE]"` stores
the literal placeholder, `"[NO_CONTENT]"` stores an empty transcript with a
warning, any other text is stored as-is; `None` (line 385-386) leaves the
pending transcript `prev` untouched and issues no notice. -/
def applyTranscriptionResult (r : Option String) (prev : String) :
    String × Option Notice :=
  match r with
  | none => (prev, none)
  | some t =>
      if t = "[SILENCE]" then
        ("", some (Notice.info "No speech detected in the specified time segment."))
      else if t = "[NOISE]" then
        ("[NOISE]", some (Notice.info "Only background noise/music detected in the segment."))
      else if t = "[NO_CONTENT]" then
        ("", some (Notice.warn "No content was returned from the API for this segment."))
      else
        (t, some (Notice.ok "Transcribed segment successfully!"))

/-! ## A syntactic JSON parser, embedding `json.loads` (strict mode)

Used by the Apply-JSON-Changes handler (line 477).  Numbers follow the JSON
grammar `-?(0|[1-9]\d*)(\.\d+)?([eE][-+]?\d+)?`; strings support the standard
escapes (a `\u` escape is mapped through `Char.ofNat`; surrogate-pair
recombination and the Python-specific `NaN`/`Infinity` extensions are outside
the model, as their values are not representable here).  Errors carry the
reason and the character offset, as Python's `json.JSONDecodeError` does. -/

/-- JSON insignificant whitespace. -/
def isJsonWs (c : Char) : Bool :=
  c == ' ' || c == '\t' || c == '\n' || c == '\r'

/-- Skip whitespace, tracking the character offset. -/
def skipWs : List Char → ℕ → List Char × ℕ
  | [], p => ([], p)
  | c :: cs, p => if isJsonWs c then skipWs cs (p + 1) else (c :: cs, p)

/-- Decimal digits prefix of the input. -/
def takeDigits : List Char → List Char × List Char
  | [] => ([], [])
  | c :: cs =>
      if c.isDigit then
        let (ds, r) := takeDigits cs
        (c :: ds, r)
      else ([], c :: cs)

/-- Numeric value of a decimal digit string. -/
def digitsToNat (ds : List Char) : ℕ :=
  ds.foldl (fun acc c => acc * 10 + (c.toNat - 48)) 0

/-- Hexadecimal digit value, if any. -/
def hexVal (c : Char) : Option ℕ :=
  if '0' ≤ c ∧ c ≤ '9' then some (c.toNat - 48)
  else if 'a' ≤ c ∧ c ≤ 'f' then some (c.toNat - 87)
  else if 'A' ≤ c ∧ c ≤ 'F' then some (c.toNat - 55)
  else none

/-- Parse a JSON number at offset `pos`; the integer part is `0` or starts
with a nonzero digit, and a fraction/exponent without digits is left
unconsumed (it is not part of the number), as in the JSON number regex. -/
def parseNumber (cs : List Char) (pos : ℕ) : Except String (ℚ × List Char × ℕ) :=
  let (neg, cs1, p1) :=
    match cs with
    | '-' :: r => (true, r, pos + 1)
    | _ => (false, cs, pos)
  match takeDigits cs1 with
  | ([], _) => Except.error ("Expecting value: char " ++ toString pos)
  | (d :: ds, rest) =>
      let (intDigits, rest2, p2) :=
        if d = '0' then ([d], ds ++ rest, p1 + 1)
        else (d :: ds, rest, p1 + (d :: ds).length)
      let intPart : ℚ := (digitsToNat intDigits : ℚ)
      let (fracPart, rest3, p3) :=
        match rest2 with
        | '.' :: r =>
            match takeDigits r with
            | ([], _) => ((0 : ℚ), rest2, p2)
            | (fs, r2) =>
                ((digitsToNat fs : ℚ) / (10 : ℚ) ^ fs.length, r2, p2 + 1 + fs.length)
        | _ => ((0 : ℚ), rest2, p2)
      let (expVal, rest4, p4) :=
        match rest3 with
        | e :: r =>
            if e = 'e' ∨ e = 'E' then
              let (esign, r1, pe) :=
                match r with
                | '-' :: r2 => ((-1 : ℤ), r2, p3 + 2)
                | '+' :: r2 => ((1 : ℤ), r2, p3 + 2)
                | _ => ((1 : ℤ), r, p3 + 1)
              match takeDigits r1 with
              | ([], _) => ((0 : ℤ), rest3, p3)
              | (es, r2) => (esign * (digitsToNat es : ℤ), r2, pe + es.length)
            else ((0 : ℤ), rest3, p3)
        | _ => ((0 : ℤ), rest3, p3)
      let mag : ℚ := (intPart + fracPart) * (10 : ℚ) ^ expVal
      Except.ok (if neg then -mag else mag, rest4, p4)

/-- Parse the body of a JSON string after the opening quote, accumulating
decoded characters in `acc`. -/
def parseStringBody : List Char → ℕ → List Char → Except String (String × List Char × ℕ)
  | [], p, _ => Except.error ("Unterminated string: char " ++ toString p)
  | '"' :: rest, p, acc => Except.ok (String.mk acc.reverse, rest, p + 1)
  | '\\' :: esc, p, acc =>
      match esc with
      | '"' :: rest => parseStringBody rest (p + 2) ('"' :: acc)
      | '\\' :: rest => parseStringBody rest (p + 2) ('\\' :: acc)
      | '/' :: rest => parseStringBody rest (p + 2) ('/' :: acc)
      | 'b' :: rest => parseStringBody rest (p + 2) ('\x08' :: acc)
      | 'f' :: rest => parseStringBody rest (p + 2) ('\x0c' :: acc)
      | 'n' :: rest => parseStringBody rest (p + 2) ('\n' :: acc)
      | 'r' :: rest => parseStringBody rest (p + 2) ('\r' :: acc)
      | 't' :: rest => parseStringBody rest (p + 2) ('\t' :: acc)
      | 'u' :: h1 :: h2 :: h3 :: h4 :: rest =>
          match hexVal h1, hexVal h2, hexVal h3, hexVal h4 with
          | some a, some b, some c, some d =>
              parseStringBody rest (p + 6)
                (Char.ofNat (((a * 16 + b) * 16 + c) * 16 + d) :: acc)
          | _, _, _, _ => Except.error ("Invalid \\uXXXX escape: char " ++ toString p)
      | _ => Except.error ("Invalid \\escape: char " ++ toString p)
  | c :: rest, p, acc =>
      if c.toNat < 32 then
        Except.error ("Invalid control character: char " ++ toString p)
      else parseStringBody rest (p + 1) (c :: acc)

/-- Parser continuation frames: a plain value, the remaining elements of an
array (first elements accumulated), or the remaining members of an object. -/
inductive PFrame where
  | val : PFrame
  | items : List Json → PFrame
  | members : List (String × Json) → PFrame

/-- Fuel-indexed recursive-descent parse step: parse a JSON value, or the
tail of an array / object, at offset `pos`. -/
def parseCore : ℕ → PFrame → List Char → ℕ → Except String (Json × List Char × ℕ)
  | 0, _, _, p => Except.error ("Nesting too deep: char " ++ toString p)
  | fuel + 1, PFrame.val, cs, pos =>
      match cs with
      | 'n' :: 'u' :: 'l' :: 'l' :: rest => Except.ok (Json.null, rest, pos + 4)
      | 't' :: 'r' :: 'u' :: 'e' :: rest => Except.ok (Json.bool true, rest, pos + 4)
      | 'f' :: 'a' :: 'l' :: 's' :: 'e' :: rest => Except.ok (Json.bool false, rest, pos + 5)
      | '"' :: rest => do
          let (s, r, p) ← parseStringBody rest (pos + 1) []
          Except.ok (Json.str s, r, p)
      | '[' :: rest =>
          let (cs1, p1) := skipWs rest (pos + 1)
          (match cs1 with
           | ']' :: r => Except.ok (Json.arr [], r, p1 + 1)
           | _ => do
               let (x, r, p) ← parseCore fuel PFrame.val cs1 p1
               parseCore fuel (PFrame.items [x]) r p)
      | '\x7b' :: rest =>
          let (cs1, p1) := skipWs rest (pos + 1)
          (match cs1 with
           | '\x7d' :: r => Except.ok (Json.obj [], r, p1 + 1)
           | '"' :: r => do
               let (k, r1, pk) ← parseStringBody r (p1 + 1) []
               let (r2, p2) := skipWs r1 pk
               (match r2 with
                | ':' :: r3 => do
                    let (r4, p4) := skipWs r3 (p2 + 1)
                    let (v, r5, p5) ← parseCore fuel PFrame.val r4 p4
                    parseCore fuel (PFrame.members [(k, v)]) r5 p5
                | _ => Except.error ("Expecting colon delimiter: char " ++ toString p2))
           | _ => Except.error ("Expecting property name enclosed in double quotes: char " ++ toString p1))
      | c :: _ =>
          if c == '-' || c.isDigit then do
            let (q, r, p) ← parseNumber cs pos
            Except.ok (Json.num q, r, p)
          else Except.error ("Expecting value: char " ++ toString pos)
      | [] => Except.error ("Expecting value: char " ++ toString pos)
  | fuel + 1, PFrame.items acc, cs, pos =>
      let (cs1, p1) := skipWs cs pos
      (match cs1 with
       | ',' :: r => do
           let (r2, p2) := skipWs r (p1 + 1)
           let (x, r3, p3) ← parseCore fuel PFrame.val r2 p2
           parseCore fuel (PFrame.items (acc ++ [x])) r3 p3
       | ']' :: r => Except.ok (Json.arr acc, r, p1 + 1)
       | _ => Except.error ("Expecting comma delimiter: char " ++ toString p1))
  | fuel + 1, PFrame.members acc, cs, pos =>
      let (cs1, p1) := skipWs cs pos
      (match cs1 with
       | ',' :: r =>
           let (r2, p2) := skipWs r (p1 + 1)
           (match r2 with
            | '"' :: r3 => do
                let (k, r4, pk) ← parseStringBody r3 (p2 + 1) []
                let (r5, p5) := skipWs r4 pk
                (match r5 with
                 | ':' :: r6 => do
                     let (r7, p7) := skipWs r6 (p5 + 1)
                     let (v, r8, p8) ← parseCore fuel PFrame.val r7 p7
                     parseCore fuel (PFrame.members (acc ++ [(k, v)])) r8 p8
                 | _ => Except.error ("Expecting colon delimiter: char " ++ toString p5))
            | _ => Except.error ("Expecting property name enclosed in double quotes: char " ++ toString p2))
       | '\x7d' :: r => Except.ok (Json.obj acc, r, p1 + 1)
       | _ => Except.error ("Expecting comma delimiter: char " ++ toString p1))

/-- `json.loads` on the raw editor text: parse one value surrounded by
whitespace; anything left over is an error, as in Python. -/
def json_loads (text : String) : Except String Json :=
  let (cs, p) := skipWs text.data 0
  match parseCore (2 * text.length + 2) PFrame.val cs p with
  | Except.error e => Except.error e
  | Except.ok (v, rest, p2) =>
      let (rest2, p3) := skipWs rest p2
      match rest2 with
      | [] => Except.ok v
      | _ => Except.error ("Extra data: char " ++ toString p3)

/-! ## Session state and the annotation-page operations -/

/-- The parts of `st.session_state` the annotation page mutates:
`metadata`, `speakers`, `segments` (Python values, so `Json`-shaped) and the
pending transcript `transcription_content`. -/
structure AppState where
  metadata : Json
  speakers : Json
  segments : Json
  transcription_content : String

/-- The metadata dict built by the metadata form (lines 260-270), given its
section values; the keys and their order are fixed by the source. -/
def mkMetadata (ty languageInfo domainInfo annotatorInfo conventionInfo ilc : Json) : Json :=
  Json.obj [("type", ty), ("languageInfo", languageInfo), ("domainInfo", domainInfo),
    ("annotatorInfo", annotatorInfo), ("conventionInfo", conventionInfo),
    ("internalLanguageCode", ilc)]

/-- The fixed `taskStatus` block of the exported document (line 466). -/
def taskStatusJson : Json :=
  Json.obj [
    ("segmentation", Json.obj [("workflowStatus", Json.str "COMPLETE"), ("workflowType", Json.str "LABEL")]),
    ("speakerId", Json.obj [("workflowStatus", Json.str "COMPLETE"), ("workflowType", Json.str "LABEL")]),
    ("transcription", Json.obj [("workflowStatus", Json.str "COMPLETE"), ("workflowType", Json.str "LABEL")])]

/-- `final_json` (lines 456-468): the exported document, built from the
metadata dict (whose keys are read with `metadata['...']` subscripts, raising
`KeyError` when absent), the speaker list and the segment list. -/
def buildFinalJson (metadata speakers segments : Json) : Except String Json := do
  let ty ← pySubscript metadata "type"
  let ilc ← pySubscript metadata "internalLanguageCode"
  let languageInfo ← pySubscript metadata "languageInfo"
  let domainInfo ← pySubscript metadata "domainInfo"
  let conventionInfo ← pySubscript metadata "conventionInfo"
  let annotatorInfo ← pySubscript metadata "annotatorInfo"
  Except.ok (Json.obj [
    ("type", ty),
    ("value", Json.obj [
      ("languages", Json.arr [ilc]),
      ("languageInfo", languageInfo),
      ("domainInfo", domainInfo),
      ("conventionInfo", conventionInfo),
      ("annotatorInfo", annotatorInfo),
      ("speakers", speakers),
      ("segments", segments),
      ("taskStatus", taskStatusJson)])])

/-- The Apply-JSON-Changes extraction (lines 478-481) on an already parsed
document: `value_section = edited_data.get('value', {})`, then the in-memory
speaker and segment lists are replaced by `value_section.get('speakers', [])`
and `value_section.get('segments', [])`.  An `AttributeError` from a `.get`
on a non-dict is not caught by the handler (which catches only
`json.JSONDecodeError`), and it fires before either list is assigned, so the
all-or-nothing `Except` model is faithful. -/
def applyParsedChanges (edited_data : Json) (st : AppState) :
    Except String (AppState × Option Notice) := do
  let value_section ← pyGetD edited_data "value" (Json.obj [])
  let spk ← pyGetD value_section "speakers" (Json.arr [])
  let seg ← pyGetD value_section "segments" (Json.arr [])
  Except.ok ({ st with speakers := spk, segments := seg },
    some (Notice.ok "JSON changes have been applied!"))

/-- The Apply-JSON-Changes handler (lines 475-484) on the raw editor text:
a `json.JSONDecodeError` is caught and reported with its reason/location,
leaving the state untouched. -/
def applyJsonChanges (editedText : String) (st : AppState) :
    Except String (AppState × Option Notice) :=
  match json_loads editedText with
  | Except.error e => Except.ok (st, some (Notice.err ("Invalid JSON format: " ++ e)))
  | Except.ok edited_data => applyParsedChanges edited_data st

/-- `new_segment` (lines 421-431), given the two times, the generated
`segmentId`, the form fields and the language code value. -/
def mkSegment (s e : ℚ) (segId primaryType loudnessLevel : String) (lang : Json)
    (speakerId transcriptionText : String) : Json :=
  Json.obj [
    ("start", Json.num s),
    ("end", Json.num e),
    ("segmentId", Json.str segId),
    ("primaryType", Json.str primaryType),
    ("loudnessLevel", Json.str loudnessLevel),
    ("language", lang),
    ("segmentLanguages", Json.arr [lang]),
    ("speakerId", Json.str speakerId),
    ("transcriptionData", Json.obj [("content", Json.str transcriptionText)])]

/-- The Add-Segment handler (lines 409-437).  `startVal`/`endVal` are the
results of `float(start_time)` / `float(end_time)`: `none` models the
`ValueError` on non-numeric text, which the handler catches and reports
(line 436-437).  Checks run in source order: missing speaker first, then
numeric conversion, then `start_float >= end_float`; on success the segment
is appended and the pending transcript is cleared. -/
def addSegment (st : AppState) (selectedSpeaker : Option String)
    (startVal endVal : Option ℚ) (segId primaryType loudnessLevel transcriptionText : String) :
    Except String (AppState × Option Notice) :=
  match selectedSpeaker with
  | none =>
      Except.ok (st, some (Notice.err "Cannot add segment. Please define at least one speaker in the metadata."))
  | some speakerId =>
      match startVal, endVal with
      | some s, some e =>
          if s ≥ e then
            Except.ok (st, some (Notice.err "Start time must be less than end time!"))
          else do
            let lang ← pyGetD st.metadata "internalLanguageCode" (Json.str "en_US")
            let segs ← pyAppend st.segments
              (mkSegment s e segId primaryType loudnessLevel lang speakerId transcriptionText)
            Except.ok ({ st with segments := segs, transcription_content := "" },
              some (Notice.ok "Segment added successfully!"))
      | _, _ =>
          Except.ok (st, some (Notice.err "Please enter valid numeric values for start and end times"))

mutual

/-- Python `==` on JSON-shaped values (used by the delete comparison).
Lists compare elementwise in order; dicts compare entrywise (the dicts that
occur here have identical key order when equal, as they come from the same
builder; Python's cross-type numeric equalities such as `True == 1` are not
modelled — the values compared here, segment ids, are strings). -/
def jsonBeq : Json → Json → Bool
  | Json.null, Json.null => true
  | Json.bool a, Json.bool b => a == b
  | Json.num a, Json.num b => a == b
  | Json.str a, Json.str b => a == b
  | Json.arr xs, Json.arr ys => jsonListBeq xs ys
  | Json.obj xs, Json.obj ys => jsonObjBeq xs ys
  | _, _ => false

/-- Elementwise equality of JSON lists. -/
def jsonListBeq : List Json → List Json → Bool
  | [], [] => true
  | x :: xs, y :: ys => jsonBeq x y && jsonListBeq xs ys
  | _, _ => false

/-- Elementwise equality of JSON object member lists. -/
def jsonObjBeq : List (String × Json) → List (String × Json) → Bool
  | [], [] => true
  | (k1, v1) :: xs, (k2, v2) :: ys => k1 == k2 && jsonBeq v1 v2 && jsonObjBeq xs ys
  | _, _ => false

end

/-- The list comprehension of the Delete-Segment handler (lines 450-452):
keep the segments whose `['segmentId']` differs from the clicked segment's;
the subscript raises on elements without the key. -/
def keepOthers (targetId : Json) : List Json → Except String (List Json)
  | [] => Except.ok []
  | s :: rest => do
      let sid ← pySubscript s "segmentId"
      let tail ← keepOthers targetId rest
      Except.ok (if jsonBeq sid targetId then tail else s :: tail)

/-- The Delete-Segment handler (lines 449-453) for the segment whose
`segmentId` is `targetId`. -/
def deleteSegment (st : AppState) (targetId : Json) : Except String AppState :=
  match st.segments with
  | Json.arr xs => do
      let kept ← keepOthers targetId xs
      Except.ok { st with segments := Json.arr kept }
  | _ => Except.error "TypeError: segments is not iterable"

/-- Python `float()` on a JSON-shaped value, as used by the sort key:
numbers are returned, booleans coerce to 0/1, everything else raises
(`float` of a numeric string also succeeds in Python, but segment `start`
fields in this program are numbers, never strings). -/
def pyFloat : Json → Except String ℚ
  | Json.num q => Except.ok q
  | Json.bool b => Except.ok (if b then 1 else 0)
  | _ => Except.error "TypeError: float() argument is not a number"

/-- The sort key `lambda x: float(x.get('start', 0))` of line 443. -/
def segSortKey (x : Json) : Except String ℚ := do
  let s ← pyGetD x "start" (Json.num 0)
  pyFloat s

/-- Key computation of `sorted(..., key=...)`: Python computes the key of
each element once, left to right, before sorting; the first raising element
aborts the whole call. -/
def keyAll : List Json → Except String (List (ℚ × Json))
  | [] => Except.ok []
  | x :: xs => do
      let k ← segSortKey x
      let rest ← keyAll xs
      Except.ok ((k, x) :: rest)

/-- `sorted(st.session_state.segments, key=lambda x: float(x.get('start', 0)))`
(line 443): Python's `sorted` computes each key once, then stable-sorts;
`List.mergeSort` is stable, so the embedding matches. -/
def sortSegments (segments : Json) : Except String Json :=
  match segments with
  | Json.arr xs => do
      let keyed ← keyAll xs
      Except.ok (Json.arr ((keyed.mergeSort (fun a b => decide (a.1 ≤ b.1))).map (fun p => p.2)))
  | _ => Except.error "TypeError: segments is not iterable"

/-- The Annotated-Segments render block (lines 439-444): skipped entirely
when `st.session_state.segments` is falsy; otherwise the sorted list is
stored back into the session state before the export block runs. -/
def renderSegmentsBlock (st : AppState) : Except String AppState :=
  if pyFalsy st.segments then Except.ok st
  else do
    let sorted ← sortSegments st.segments
    Except.ok { st with segments := sorted }

/-- One user action on the segment list: an Add-Segment form submission
(with its inputs and the generated id) or a Delete-Segment click. -/
inductive SegOp where
  | add : Option String → Option ℚ → Option ℚ → String → String → String → String → SegOp
  | del : Json → SegOp

/-- Apply one segment-list action to the session state. -/
def applySegOp (st : AppState) : SegOp → Except String AppState
  | SegOp.add spk s e segId pt ll tx => do
      let (st2, _) ← addSegment st spk s e segId pt ll tx
      Except.ok st2
  | SegOp.del tid => deleteSegment st tid

/-- Apply a sequence of segment-list actions. -/
def applySegOps (st : AppState) : List SegOp → Except String AppState
  | [] => Except.ok st
  | op :: ops => do
      let st2 ← applySegOp st op
      applySegOps st2 ops

/-- A segment value whose sort key evaluates (its `start`, defaulted to 0
when absent, converts to a number). -/
def HasStartKey (x : Json) : Prop :=
  ∃ q, segSortKey x = Except.ok q

/-- Ordering of two segment values by their start keys. -/
def startLE (a b : Json) : Prop :=
  ∀ qa qb, segSortKey a = Except.ok qa → segSortKey b = Except.ok qb → qa ≤ qb

/-- Segment lists as produced by the add/delete flow: a Python list all of
whose elements carry a sort key. -/
def GoodSegs (j : Json) : Prop :=
  ∃ xs, j = Json.arr xs ∧ ∀ x ∈ xs, HasStartKey x

/-! ## Lightweight preview profile (spec §4.1) -/

/-- Channel count, sample rate and byte size of an audio buffer, the
properties the preview-profile contract constrains. -/
structure AudioProps where
  sizeBytes : ℕ
  channels : ℕ
  frameRate : ℕ

/-- Modelled from the spec: the preview-path size threshold (25 MB) of the
lightweight preview conversion, which is not present in `src/` (spec §4.1
describes it as part of the repository's segment-extractor component). -/
def PREVIEW_SIZE_THRESHOLD : ℕ := 25 * 1024 * 1024

/-- Modelled from the spec: the fixed reduced sample rate of the
lightweight preview profile; the spec fixes that such a constant exists but
not its value. -/
def PREVIEW_FRAME_RATE : ℕ := 16000

/-- Modelled from the spec: the lightweight preview profile conversion —
"mono, fixed reduced sample rate, compressed" — which is not present in
`src/`: it forces one channel and the fixed target rate whatever the
original's channel count or rate. -/
def previewProfile (a : AudioProps) : AudioProps :=
  { a with channels := 1, frameRate := PREVIEW_FRAME_RATE }

/-- Modelled from the spec: the preview path applies the lightweight
conversion only when the original file exceeds the 25 MB threshold,
otherwise the original is previewed as-is. -/
def previewAudio (a : AudioProps) : AudioProps :=
  if PREVIEW_SIZE_THRESHOLD < a.sizeBytes then previewProfile a else a

/-- Modelled from the spec: the session's audio after upload — the original
buffer, kept verbatim, plus the preview-path copy. -/
structure SessionAudio where
  original : AudioProps
  preview : AudioProps

/-- Modelled from the spec: loading an uploaded file keeps the original and
derives the preview copy from it. -/
def loadSessionAudio (a : AudioProps) : SessionAudio :=
  { original := a, preview := previewAudio a }

/-- Modelled from the spec: the lossless profile used for transcription is
always derived from the original bytes, never from the downsampled preview
copy (in `src/app.py` lines 367-369 the transcription call likewise receives
the untouched uploaded bytes). -/
def transcriptionSource (s : SessionAudio) : AudioProps :=
  s.original

/-! ## Claims -/

/-- C1: for fractional-second offsets with 0 ≤ start < end ≤ duration (the
clip being `L` whole milliseconds long), the extraction converts each offset
by truncating seconds × 1000, the half-open millisecond slice `[start_ms,
end_ms)` has exactly `end_ms - start_ms` milliseconds, and the extracted
duration equals `end - start` to within one millisecond. -/
theorem segment_extraction_duration (L : ℤ) (s e : ℚ)
    (h0 : 0 ≤ s) (hse : s < e) (hdur : e * 1000 ≤ (L : ℚ)) :
    sliceDurationMs L (toMilliseconds s) (toMilliseconds e)
      = toMilliseconds e - toMilliseconds s ∧
    |((toMilliseconds e - toMilliseconds s : ℤ) : ℚ) / 1000 - (e - s)| ≤ 1 / 1000 := by
  have hs0 : (0 : ℚ) ≤ s * 1000 := by nlinarith
  have he0 : (0 : ℚ) ≤ e * 1000 := by nlinarith
  have hts : toMilliseconds s = ⌊s * 1000⌋ := by
    unfold toMilliseconds pyIntTrunc
    rw [if_neg (not_lt.mpr hs0)]
  have hte : toMilliseconds e = ⌊e * 1000⌋ := by
    unfold toMilliseconds pyIntTrunc
    rw [if_neg (not_lt.mpr he0)]
  have h0a : 0 ≤ ⌊s * 1000⌋ := Int.le_floor.mpr (by exact_mod_cast hs0)
  have hab : ⌊s * 1000⌋ ≤ ⌊e * 1000⌋ := Int.floor_le_floor (by nlinarith)
  have hbL : ⌊e * 1000⌋ ≤ L := by
    have h := Int.floor_le_floor hdur
    rwa [Int.floor_intCast] at h
  have hna : normIndex L ⌊s * 1000⌋ = ⌊s * 1000⌋ := by
    unfold normIndex
    rw [if_neg (not_lt.mpr h0a), min_eq_left (le_trans hab hbL)]
  have hnb : normIndex L ⌊e * 1000⌋ = ⌊e * 1000⌋ := by
    unfold normIndex
    rw [if_neg (not_lt.mpr (le_trans h0a hab)), min_eq_left hbL]
  have hfa1 : ((⌊s * 1000⌋ : ℤ) : ℚ) ≤ s * 1000 := Int.floor_le _
  have hfa2 : s * 1000 - 1 < ((⌊s * 1000⌋ : ℤ) : ℚ) := Int.sub_one_lt_floor _
  have hfb1 : ((⌊e * 1000⌋ : ℤ) : ℚ) ≤ e * 1000 := Int.floor_le _
  have hfb2 : e * 1000 - 1 < ((⌊e * 1000⌋ : ℤ) : ℚ) := Int.sub_one_lt_floor _
  constructor
  · rw [hts, hte]
    unfold sliceDurationMs
    rw [hna, hnb, max_eq_right (by omega)]
  · rw [hts, hte, abs_le]
    constructor
    · push_cast
      linarith
    · push_cast
      linarith

/-- Witness for C1 at a 6000 ms clip with start 0.5 s and end 1.5 s. -/
theorem segment_extraction_duration_witness :
    sliceDurationMs 6000 (toMilliseconds (1 / 2)) (toMilliseconds (3 / 2))
      = toMilliseconds (3 / 2) - toMilliseconds (1 / 2) ∧
    |((toMilliseconds (3 / 2) - toMilliseconds (1 / 2) : ℤ) : ℚ) / 1000 - (3 / 2 - 1 / 2)| ≤ 1 / 1000 :=
  segment_extraction_duration 6000 (1 / 2) (3 / 2) (by norm_num) (by norm_num) (by norm_num)

/-- C2: serialising the document the builder produces from a metadata
record, a speaker list and a segment list, and then applying the round-trip
parse (which replaces the in-memory speaker and segment lists from the
document's value object), reproduces the original speaker and segment lists.
`json.loads (json.dumps doc)` is the identity on JSON-serialisable values,
so the composition is stated on the parsed document. -/
theorem build_roundtrip_identity (ty li di ai ci ilc speakers segments : Json) (st : AppState) :
    Except.bind (buildFinalJson (mkMetadata ty li di ai ci ilc) speakers segments)
      (fun doc => applyParsedChanges doc st)
      = Except.ok ({ st with speakers := speakers, segments := segments },
         some (Notice.ok "JSON changes have been applied!")) := by
  rfl

/-- C3: applying a JSON edit whose text fails to parse reports the parse
error (reason and character position) and leaves the whole in-memory state —
speaker list and segment list included — exactly as it was. -/
theorem invalid_json_edit_preserves_state (text : String) (st : AppState) (e : String)
    (herr : json_loads text = Except.error e) :
    applyJsonChanges text st
      = Except.ok (st, some (Notice.err ("Invalid JSON format: " ++ e))) := by
  unfold applyJsonChanges
  rw [herr]

/-- Witness for C3: a document missing its closing brace is rejected and the
state, segment list included, is returned untouched. -/
theorem invalid_json_edit_preserves_state_witness :
    applyJsonChanges "\x7b\"value\": "
        (AppState.mk Json.null (Json.arr [Json.str "S1"]) (Json.arr [Json.str "old-seg"]) "t")
      = Except.ok
        (AppState.mk Json.null (Json.arr [Json.str "S1"]) (Json.arr [Json.str "old-seg"]) "t",
         some (Notice.err ("Invalid JSON format: " ++ "Expecting value: char 10"))) :=
  invalid_json_edit_preserves_state "\x7b\"value\": "
    (AppState.mk Json.null (Json.arr [Json.str "S1"]) (Json.arr [Json.str "old-seg"]) "t")
    "Expecting value: char 10" rfl

/-- C10 (amended): for every parsed JSON document whose top level is an
object, the apply-JSON-changes extraction silently replaces the in-memory
speaker list and segment list with whatever `value.speakers` / `value.segments`
hold — an empty list when the `value` key is absent, or (when `value` is an
object) when the respective key is absent — and reports success; previously
entered speakers and segments are discarded without error.  A top-level
non-object document instead raises an uncaught `AttributeError`. -/
theorem json_edit_missing_keys_silently_emptied (kvs vkvs : List (String × Json)) (st : AppState) :
    (lookupKey "value" kvs = none →
      applyParsedChanges (Json.obj kvs) st
        = Except.ok ({ st with speakers := Json.arr [], segments := Json.arr [] },
            some (Notice.ok "JSON changes have been applied!"))) ∧
    (lookupKey "value" kvs = some (Json.obj vkvs) →
      applyParsedChanges (Json.obj kvs) st
        = Except.ok ({ st with
              speakers := (lookupKey "speakers" vkvs).getD (Json.arr []),
              segments := (lookupKey "segments" vkvs).getD (Json.arr []) },
            some (Notice.ok "JSON changes have been applied!"))) := by
  constructor
  · intro hv
    unfold applyParsedChanges pyGetD
    simp only [hv]
    rfl
  · intro hv
    unfold applyParsedChanges pyGetD
    simp only [hv]
    cases hs : lookupKey "speakers" vkvs <;> cases hg : lookupKey "segments" vkvs <;>
      simp [hs, hg, Except.bind, bind, Except.instMonad]

/-- Witness for C10 (amended): a valid object document with no `value` key
silently empties both lists and reports success. -/
theorem json_edit_missing_keys_silently_emptied_witness :
    applyParsedChanges (Json.obj [("foo", Json.null)])
        (AppState.mk Json.null (Json.arr [Json.str "S1"]) (Json.arr [Json.str "old-seg"]) "t")
      = Except.ok
        (AppState.mk Json.null (Json.arr []) (Json.arr []) "t",
         some (Notice.ok "JSON changes have been applied!")) :=
  (json_edit_missing_keys_silently_emptied [("foo", Json.null)] []
    (AppState.mk Json.null (Json.arr [Json.str "S1"]) (Json.arr [Json.str "old-seg"]) "t")).1 rfl

/-- Counterexample to C10 as stated: `[]` is a syntactically valid JSON
document lacking a `value` key, yet applying it raises an uncaught
`AttributeError` (only `json.JSONDecodeError` is caught) instead of
replacing the lists with empties and reporting success. -/
theorem json_edit_toplevel_array_raises :
    applyJsonChanges "[]"
        (AppState.mk Json.null (Json.arr [Json.str "S1"]) (Json.arr [Json.str "old-seg"]) "t")
      = Except.error "AttributeError: object has no attribute get" := rfl

/-- C4 (amended): the caller maps the exact `"[SILENCE]"` sentinel to an
empty string stored as the pending transcript (never the sentinel text), maps
the exact `"[NOISE]"` sentinel to the literal placeholder stored verbatim,
and stores any other text as the transcript — except the exact
`"[NO_CONTENT]"` token, which is mapped to an empty transcript with a
warning. -/
theorem sentinel_mapping (t prev : String)
    (hns : t ≠ "[SILENCE]") (hnn : t ≠ "[NOISE]") (hnc : t ≠ "[NO_CONTENT]") :
    (applyTranscriptionResult (some "[SILENCE]") prev).1 = "" ∧
    (applyTranscriptionResult (some "[NOISE]") prev).1 = "[NOISE]" ∧
    (applyTranscriptionResult (some "[NO_CONTENT]") prev).1 = "" ∧
    (applyTranscriptionResult (some t) prev).1 = t := by
  refine ⟨rfl, rfl, rfl, ?_⟩
  simp only [applyTranscriptionResult, if_neg hns, if_neg hnn, if_neg hnc]

/-- Witness for C4 (amended) at the free text `"hello"`. -/
theorem sentinel_mapping_witness :
    (applyTranscriptionResult (some "[SILENCE]") "p").1 = "" ∧
    (applyTranscriptionResult (some "[NOISE]") "p").1 = "[NOISE]" ∧
    (applyTranscriptionResult (some "[NO_CONTENT]") "p").1 = "" ∧
    (applyTranscriptionResult (some "hello") "p").1 = "hello" :=
  sentinel_mapping "hello" "p" (by decide) (by decide) (by decide)

/-- Counterexample to C4 as stated: a successful response whose candidate
text is exactly `"[NO_CONTENT]"` — text other than the two sentinels — is
not stored as the transcript: the stored pending transcript is `""`. -/
theorem sentinel_mapping_no_content_not_verbatim :
    processResponse 200 ""
        (Json.obj [("candidates", Json.arr [Json.obj [("content",
          Json.obj [("parts", Json.arr [Json.obj [("text", Json.str "[NO_CONTENT]")]])])]])])
      = (some "[NO_CONTENT]", none) ∧
    (applyTranscriptionResult (some "[NO_CONTENT]") "p").1 = "" ∧
    "[NO_CONTENT]" ≠ "" ∧ "[NO_CONTENT]" ≠ "[SILENCE]" ∧ "[NO_CONTENT]" ≠ "[NOISE]" :=
  ⟨rfl, rfl, by decide, by decide, by decide⟩

/-- C5 (amended): at an Add-Segment attempt, a missing speaker selection, a
non-numeric start or end time (`float` raising `ValueError`), and an
inverted time range (start ≥ end) are each validated before any side effect:
the error is reported and the state — segment list included — is returned
unchanged.  A negative start time is not checked on this path (it is only
checked before transcription): a segment with negative start and
start < end is appended. -/
theorem add_segment_validation (st : AppState) (spk : String) (s e : Option ℚ)
    (qs qe : ℚ) (segId pt ll tx : String) :
    (addSegment st none s e segId pt ll tx
       = Except.ok (st, some (Notice.err "Cannot add segment. Please define at least one speaker in the metadata."))) ∧
    (addSegment st (some spk) none e segId pt ll tx
       = Except.ok (st, some (Notice.err "Please enter valid numeric values for start and end times"))) ∧
    (addSegment st (some spk) s none segId pt ll tx
       = Except.ok (st, some (Notice.err "Please enter valid numeric values for start and end times"))) ∧
    (qe ≤ qs →
      addSegment st (some spk) (some qs) (some qe) segId pt ll tx
        = Except.ok (st, some (Notice.err "Start time must be less than end time!"))) := by
  refine ⟨rfl, ?_, ?_, ?_⟩
  · cases e <;> rfl
  · cases s <;> rfl
  · intro h
    simp only [addSegment]
    rw [if_pos h]

/-- Witness for C5 (amended) with start 5.0 and end 2.0 on the inverted
branch. -/
theorem add_segment_validation_witness :
    (addSegment
        (AppState.mk (mkMetadata Json.null Json.null Json.null Json.null Json.null (Json.str "en_NZ"))
          (Json.arr []) (Json.arr []) "") none none none "id" "Speech" "Normal" ""
       = Except.ok
          (AppState.mk (mkMetadata Json.null Json.null Json.null Json.null Json.null (Json.str "en_NZ"))
            (Json.arr []) (Json.arr []) "",
           some (Notice.err "Cannot add segment. Please define at least one speaker in the metadata."))) ∧
    (addSegment
        (AppState.mk (mkMetadata Json.null Json.null Json.null Json.null Json.null (Json.str "en_NZ"))
          (Json.arr []) (Json.arr []) "") (some "S1") (some 5) (some 2) "id" "Speech" "Normal" ""
       = Except.ok
          (AppState.mk (mkMetadata Json.null Json.null Json.null Json.null Json.null (Json.str "en_NZ"))
            (Json.arr []) (Json.arr []) "",
           some (Notice.err "Start time must be less than end time!"))) :=
  ⟨(add_segment_validation
      (AppState.mk (mkMetadata Json.null Json.null Json.null Json.null Json.null (Json.str "en_NZ"))
        (Json.arr []) (Json.arr []) "") "S1" none none 5 2 "id" "Speech" "Normal" "").1,
   (add_segment_validation
      (AppState.mk (mkMetadata Json.null Json.null Json.null Json.null Json.null (Json.str "en_NZ"))
        (Json.arr []) (Json.arr []) "") "S1" none none 5 2 "id" "Speech" "Normal" "").2.2.2
     (by norm_num)⟩

/-- Counterexample to C5 as stated: a segment with negative start time
`-3.0` (and end `-1.0`, so start < end) is appended with a success notice —
the negative start is not validated on the Add-Segment path, and the
segment-list length changes from 0 to 1. -/
theorem add_segment_negative_start_accepted :
    addSegment
        (AppState.mk (mkMetadata Json.null Json.null Json.null Json.null Json.null (Json.str "en_NZ"))
          (Json.arr []) (Json.arr []) "tx") (some "S1") (some (-3)) (some (-1)) "id1" "Speech" "Normal" "hello"
      = Except.ok
          (AppState.mk (mkMetadata Json.null Json.null Json.null Json.null Json.null (Json.str "en_NZ"))
            (Json.arr [])
            (Json.arr [mkSegment (-3) (-1) "id1" "Speech" "Normal" (Json.str "en_NZ") "S1" "hello"]) "",
           some (Notice.ok "Segment added successfully!")) ∧
    (-3 : ℚ) < 0 := by
  refine ⟨?_, by norm_num⟩
  simp only [addSegment]
  rw [if_neg (by norm_num)]
  rfl

/-- C6: a non-2xx HTTP response to the transcription request yields `None`
with a reported error message that contains the status code and the response
body (the body is appended only when non-empty, and an empty body is
trivially contained), and the caller then leaves the prior pending
transcript unchanged with no content set. -/
theorem http_error_reported_with_status_and_body (status : ℕ) (bodyText : String)
    (result : Json) (prev : String) (h : status < 200 ∨ 300 ≤ status) :
    processResponse status bodyText result = (none, some (httpErrMsg status bodyText)) ∧
    (toString status).data <:+: (httpErrMsg status bodyText).data ∧
    bodyText.data <:+: (httpErrMsg status bodyText).data ∧
    applyTranscriptionResult none prev = (prev, none) := by
  have hne : status ≠ 200 := by omega
  refine ⟨?_, ?_, ?_, rfl⟩
  · simp only [processResponse, transcribeTryBody, if_neg hne]
  · unfold httpErrMsg
    exact ⟨"Gemini API Error: ".data,
      (if bodyText = "" then "" else " - " ++ bodyText).data,
      by simp [String.data_append]⟩
  · unfold httpErrMsg
    by_cases hb : bodyText = ""
    · simp [hb, List.nil_infix]
    · rw [if_neg hb]
      exact ⟨("Gemini API Error: " ++ toString status).data ++ " - ".data, [],
        by simp [String.data_append]⟩

/-- Witness for C6 at HTTP status 429 with body `"rate limited"`. -/
theorem http_error_reported_with_status_and_body_witness :
    processResponse 429 "rate limited" Json.null
        = (none, some (httpErrMsg 429 "rate limited")) ∧
    (toString 429).data <:+: (httpErrMsg 429 "rate limited").data ∧
    "rate limited".data <:+: (httpErrMsg 429 "rate limited").data ∧
    applyTranscriptionResult none "prior transcript" = ("prior transcript", none) :=
  http_error_reported_with_status_and_body 429 "rate limited" Json.null "prior transcript"
    (by norm_num)

/-- C7 (amended): for a successful 200 response, the outcomes with no
candidate text split in two.  When the envelope has candidates but the first
candidate's content has a falsy `parts` list, the function returns the
distinct `"[NO_CONTENT]"` result with no error, and the caller maps it to an
empty transcript with a warning (not an error).  When the envelope has no
(or falsy) `candidates`, however, the function reports an error and returns
`None` — it is not treated as the no-content outcome. -/
theorem no_candidates_vs_empty_parts (result c c0 content parts : Json) (rest : List Json)
    (bodyText prev : String) :
    (pyGet result "candidates" = Except.ok c → pyFalsy c = true →
      processResponse 200 bodyText result = (none, some "Gemini API Error: No candidates returned.")) ∧
    (pyGet result "candidates" = Except.ok (Json.arr (c0 :: rest)) →
      pyGetD c0 "content" (Json.obj []) = Except.ok content →
      pyGetD content "parts" (Json.arr []) = Except.ok parts →
      pyFalsy parts = true →
      processResponse 200 bodyText result = (some "[NO_CONTENT]", none) ∧
      applyTranscriptionResult (some "[NO_CONTENT]") prev
        = ("", some (Notice.warn "No content was returned from the API for this segment."))) := by
  constructor
  · intro h1 h2
    unfold processResponse transcribeTryBody
    rw [if_pos rfl, h1]
    simp only [Except.bind, bind, Except.instMonad, h2, if_true]
  · intro h1 h2 h3 h4
    have hnf : pyFalsy (Json.arr (c0 :: rest)) = false := rfl
    refine ⟨?_, rfl⟩
    unfold processResponse transcribeTryBody
    rw [if_pos rfl, h1]
    simp only [Except.bind, bind, Except.instMonad, hnf, Bool.false_eq_true, if_false,
      pyIndex, List.getElem?_cons_zero, List.get?_cons_zero, h2, h3, h4, if_true]

/-- Witness for C7 (amended): an envelope whose only candidate has an empty
`parts` list yields the no-content outcome and an empty stored transcript,
and an empty envelope yields the reported error. -/
theorem no_candidates_vs_empty_parts_witness :
    processResponse 200 "" (Json.obj []) = (none, some "Gemini API Error: No candidates returned.") ∧
    (processResponse 200 ""
        (Json.obj [("candidates", Json.arr [Json.obj [("content",
          Json.obj [("parts", Json.arr [])])]])]) = (some "[NO_CONTENT]", none) ∧
      applyTranscriptionResult (some "[NO_CONTENT]") "p"
        = ("", some (Notice.warn "No content was returned from the API for this segment."))) :=
  ⟨(no_candidates_vs_empty_parts (Json.obj []) Json.null Json.null Json.null Json.null [] "" "p").1
      rfl rfl,
   (no_candidates_vs_empty_parts
      (Json.obj [("candidates", Json.arr [Json.obj [("content",
        Json.obj [("parts", Json.arr [])])]])])
      Json.null
      (Json.obj [("content", Json.obj [("parts", Json.arr [])])])
      (Json.obj [("parts", Json.arr [])]) (Json.arr []) [] "" "p").2
     rfl rfl rfl rfl⟩

/-- Counterexample to C7 as stated: a successful 200 response whose envelope
is an empty object (no candidate text at all) is reported as an error and
yields `None`, leaving the prior pending transcript rather than an empty
one — it is not mapped to the no-content/empty-transcript outcome. -/
theorem empty_envelope_treated_as_error :
    processResponse 200 "" (Json.obj [])
      = (none, some "Gemini API Error: No candidates returned.") ∧
    applyTranscriptionResult none "prior" = ("prior", none) ∧
    "prior" ≠ "" :=
  ⟨rfl, rfl, by decide⟩

/-- C9: (spec-modelled — the preview path is not in `src/`) when the input
audio exceeds the 25 MB threshold the lightweight conversion is applied on
the preview path; the lightweight profile's output always reports mono
channel count and the fixed target sample rate regardless of the original's
channels or rate; and the transcription source is always the original
buffer, never the downsampled preview copy. -/
theorem preview_profile_contract (a : AudioProps) :
    (PREVIEW_SIZE_THRESHOLD < a.sizeBytes → (loadSessionAudio a).preview = previewProfile a) ∧
    (previewProfile a).channels = 1 ∧
    (previewProfile a).frameRate = PREVIEW_FRAME_RATE ∧
    transcriptionSource (loadSessionAudio a) = a := by
  refine ⟨?_, rfl, rfl, rfl⟩
  intro h
  unfold loadSessionAudio previewAudio
  rw [if_pos h]

/-- Witness for C9 at a 26 MB stereo 44.1 kHz input. -/
theorem preview_profile_contract_witness :
    (loadSessionAudio (AudioProps.mk (26 * 1024 * 1024) 2 44100)).preview
        = previewProfile (AudioProps.mk (26 * 1024 * 1024) 2 44100) ∧
    (previewProfile (AudioProps.mk (26 * 1024 * 1024) 2 44100)).channels = 1 ∧
    (previewProfile (AudioProps.mk (26 * 1024 * 1024) 2 44100)).frameRate = PREVIEW_FRAME_RATE ∧
    transcriptionSource (loadSessionAudio (AudioProps.mk (26 * 1024 * 1024) 2 44100))
        = AudioProps.mk (26 * 1024 * 1024) 2 44100 :=
  ⟨(preview_profile_contract (AudioProps.mk (26 * 1024 * 1024) 2 44100)).1
     (by norm_num [PREVIEW_SIZE_THRESHOLD]),
   (preview_profile_contract (AudioProps.mk (26 * 1024 * 1024) 2 44100)).2.1,
   (preview_profile_contract (AudioProps.mk (26 * 1024 * 1024) 2 44100)).2.2.1,
   (preview_profile_contract (AudioProps.mk (26 * 1024 * 1024) 2 44100)).2.2.2⟩

/-- The sort key of a freshly built segment is its start time. -/
theorem segSortKey_mkSegment (s e : ℚ) (segId pt ll : String) (lang : Json) (spk tx : String) :
    segSortKey (mkSegment s e segId pt ll lang spk tx) = Except.ok s := rfl

/-- Elements kept by the delete comprehension come from the input list. -/
theorem keepOthers_mem {tid : Json} :
    ∀ {xs ys : List Json}, keepOthers tid xs = Except.ok ys → ∀ y ∈ ys, y ∈ xs := by
  intro xs
  induction xs with
  | nil =>
      intro ys h y hy
      simp only [keepOthers] at h
      injection h with h2
      subst h2
      simp at hy
  | cons s rest ih =>
      intro ys h y hy
      simp only [keepOthers] at h
      cases hs : pySubscript s "segmentId" with
      | error e =>
          rw [hs] at h
          simp [Except.bind, bind, Except.instMonad] at h
      | ok sid =>
          rw [hs] at h
          cases ht : keepOthers tid rest with
          | error e =>
              rw [ht] at h
              simp [Except.bind, bind, Except.instMonad] at h
          | ok tail =>
              rw [ht] at h
              simp only [Except.bind, bind, Except.instMonad] at h
              injection h with h2
              subst h2
              by_cases hb : jsonBeq sid tid
              · rw [if_pos hb] at hy
                exact List.mem_cons_of_mem _ (ih ht y hy)
              · rw [if_neg hb] at hy
                rcases List.mem_cons.mp hy with h1 | h1
                · exact h1 ▸ List.mem_cons_self _ _
                · exact List.mem_cons_of_mem _ (ih ht y h1)

/-- When every element has a sort key, the key computation succeeds and
pairs each element with its key. -/
theorem keyAll_ok : ∀ {xs : List Json}, (∀ x ∈ xs, HasStartKey x) →
    ∃ keyed, keyAll xs = Except.ok keyed ∧
      keyed.map (fun p => p.2) = xs ∧
      ∀ p ∈ keyed, segSortKey p.2 = Except.ok p.1 := by
  intro xs
  induction xs with
  | nil => exact fun _ => ⟨[], rfl, rfl, by simp⟩
  | cons x rest ih =>
      intro h
      obtain ⟨q, hq⟩ := h x (List.mem_cons_self _ _)
      obtain ⟨keyed, hk, hmap, hkeys⟩ := ih (fun y hy => h y (List.mem_cons_of_mem _ hy))
      refine ⟨(q, x) :: keyed, ?_, ?_, ?_⟩
      · simp only [keyAll, hq, hk, Except.bind, bind, Except.instMonad]
      · simp [hmap]
      · intro p hp
        rcases List.mem_cons.mp hp with h1 | h1
        · subst h1; exact hq
        · exact hkeys p h1

/-- Sorting a list of keyed segments succeeds and produces a list that is
pairwise ordered by start key and drawn from the input. -/
theorem sortSegments_sorted {xs : List Json} (h : ∀ x ∈ xs, HasStartKey x) :
    ∃ ys, sortSegments (Json.arr xs) = Except.ok (Json.arr ys) ∧
      List.Pairwise startLE ys ∧ (∀ y ∈ ys, y ∈ xs) ∧ (∀ y ∈ ys, HasStartKey y) := by
  obtain ⟨keyed, hk, hmap, hkeys⟩ := keyAll_ok h
  have hperm := List.mergeSort_perm keyed (fun (a b : ℚ × Json) => decide (a.1 ≤ b.1))
  have hsorted := @List.sorted_mergeSort (ℚ × Json)
    (fun a b => decide (a.1 ≤ b.1))
    (fun a b c hab hbc => decide_eq_true (le_trans (of_decide_eq_true hab) (of_decide_eq_true hbc)))
    (fun a b => by
      rcases le_total a.1 b.1 with h1 | h1
      · simp [decide_eq_true h1]
      · simp [decide_eq_true h1])
    keyed
  refine ⟨(keyed.mergeSort (fun a b => decide (a.1 ≤ b.1))).map (fun p => p.2), ?_, ?_, ?_, ?_⟩
  · simp only [sortSegments, hk, Except.bind, bind, Except.instMonad]
  · rw [List.pairwise_map]
    refine hsorted.imp_of_mem ?_
    intro a b ha hb hle qa qb hqa hqb
    have hak : segSortKey a.2 = Except.ok a.1 := hkeys a (hperm.mem_iff.mp ha)
    have hbk : segSortKey b.2 = Except.ok b.1 := hkeys b (hperm.mem_iff.mp hb)
    rw [hak] at hqa
    rw [hbk] at hqb
    injection hqa with hqa
    injection hqb with hqb
    subst hqa
    subst hqb
    exact of_decide_eq_true hle
  · intro y hy
    obtain ⟨p, hp, rfl⟩ := List.mem_map.mp hy
    have hpk : p ∈ keyed := hperm.mem_iff.mp hp
    exact hmap ▸ List.mem_map_of_mem _ hpk
  · intro y hy
    obtain ⟨p, hp, rfl⟩ := List.mem_map.mp hy
    exact ⟨p.1, hkeys p (hperm.mem_iff.mp hp)⟩

/-- The Add-Segment handler either leaves the state untouched (one of the
validation errors) or appends exactly one freshly built segment and clears
the pending transcript. -/
theorem addSegment_result {st st2 : AppState} {spk : Option String} {s e : Option ℚ}
    {segId pt ll tx : String} {n : Option Notice}
    (h : addSegment st spk s e segId pt ll tx = Except.ok (st2, n)) :
    st2 = st ∨
    ∃ speakerId qs qe lang xs, spk = some speakerId ∧ s = some qs ∧ e = some qe ∧
      st.segments = Json.arr xs ∧
      st2 = { st with
        segments := Json.arr (xs ++ [mkSegment qs qe segId pt ll lang speakerId tx]),
        transcription_content := "" } := by
  cases spk with
  | none =>
      simp only [addSegment] at h
      injection h with h2
      injection h2 with ha hb
      exact Or.inl ha.symm
  | some speakerId =>
      cases s with
      | none =>
          cases e <;>
            · simp only [addSegment] at h
              injection h with h2
              injection h2 with ha hb
              exact Or.inl ha.symm
      | some qs =>
          cases e with
          | none =>
              simp only [addSegment] at h
              injection h with h2
              injection h2 with ha hb
              exact Or.inl ha.symm
          | some qe =>
              simp only [addSegment] at h
              by_cases hge : qs ≥ qe
              · rw [if_pos hge] at h
                injection h with h2
                injection h2 with ha hb
                exact Or.inl ha.symm
              · rw [if_neg hge] at h
                cases hl : pyGetD st.metadata "internalLanguageCode" (Json.str "en_US") with
                | error err =>
                    rw [hl] at h
                    simp [Except.bind, bind, Except.instMonad] at h
                | ok lang =>
                    rw [hl] at h
                    cases hseg : st.segments with
                    | arr xs =>
                        rw [hseg] at h
                        simp only [pyAppend, Except.bind, bind, Except.instMonad] at h
                        injection h with h2
                        injection h2 with ha hb
                        exact Or.inr ⟨speakerId, qs, qe, lang, xs, rfl, rfl, rfl, rfl, ha.symm⟩
                    | null => rw [hseg] at h; simp [pyAppend, Except.bind, bind, Except.instMonad] at h
                    | bool b => rw [hseg] at h; simp [pyAppend, Except.bind, bind, Except.instMonad] at h
                    | num q => rw [hseg] at h; simp [pyAppend, Except.bind, bind, Except.instMonad] at h
                    | str s2 => rw [hseg] at h; simp [pyAppend, Except.bind, bind, Except.instMonad] at h
                    | obj kvs => rw [hseg] at h; simp [pyAppend, Except.bind, bind, Except.instMonad] at h

/-- One add or delete preserves well-keyed segment lists and does not touch
the metadata or the speaker list. -/
theorem applySegOp_good {st st2 : AppState} {op : SegOp}
    (hg : GoodSegs st.segments) (h : applySegOp st op = Except.ok st2) :
    GoodSegs st2.segments ∧ st2.metadata = st.metadata ∧ st2.speakers = st.speakers := by
  cases op with
  | add spk s e segId pt ll tx =>
      simp only [applySegOp] at h
      cases ha : addSegment st spk s e segId pt ll tx with
      | error err =>
          rw [ha] at h
          simp [Except.bind, bind, Except.instMonad] at h
      | ok p =>
          rw [ha] at h
          obtain ⟨st2p, np⟩ := p
          simp only [Except.bind, bind, Except.instMonad] at h
          injection h with h2
          subst h2
          rcases addSegment_result ha with hst | ⟨spkId, qs, qe, lang, xs, hspk, hqs, hqe, hseg, hst⟩
          · subst hst
            exact ⟨hg, rfl, rfl⟩
          · subst hst
            obtain ⟨xs0, hxs0, hall⟩ := hg
            rw [hseg] at hxs0
            injection hxs0 with hx
            refine ⟨⟨xs ++ [mkSegment qs qe segId pt ll lang spkId tx], rfl, ?_⟩, rfl, rfl⟩
            intro x hx2
            rcases List.mem_append.mp hx2 with h1 | h1
            · exact hall x (hx ▸ h1)
            · rw [List.mem_singleton.mp h1]
              exact ⟨qs, segSortKey_mkSegment qs qe segId pt ll lang spkId tx⟩
  | del tid =>
      simp only [applySegOp, deleteSegment] at h
      obtain ⟨xs0, hxs0, hall⟩ := hg
      rw [hxs0] at h
      dsimp only at h
      cases hk : keepOthers tid xs0 with
      | error err =>
          rw [hk] at h
          simp [Except.bind, bind, Except.instMonad] at h
      | ok kept =>
          rw [hk] at h
          simp only [Except.bind, bind, Except.instMonad] at h
          injection h with h2
          subst h2
          exact ⟨⟨kept, rfl, fun y hy => hall y (keepOthers_mem hk y hy)⟩, rfl, rfl⟩

/-- Any sequence of adds and deletes preserves well-keyed segment lists,
the metadata and the speaker list. -/
theorem applySegOps_good : ∀ {ops : List SegOp} {st st2 : AppState},
    GoodSegs st.segments → applySegOps st ops = Except.ok st2 →
    GoodSegs st2.segments ∧ st2.metadata = st.metadata ∧ st2.speakers = st.speakers := by
  intro ops
  induction ops with
  | nil =>
      intro st st2 hg h
      simp only [applySegOps] at h
      injection h with h2
      subst h2
      exact ⟨hg, rfl, rfl⟩
  | cons op rest ih =>
      intro st st2 hg h
      simp only [applySegOps] at h
      cases ha : applySegOp st op with
      | error e =>
          rw [ha] at h
          simp [Except.bind, bind, Except.instMonad] at h
      | ok stm =>
          rw [ha] at h
          simp only [Except.bind, bind, Except.instMonad] at h
          obtain ⟨hg2, hm, hs⟩ := applySegOp_good hg ha
          obtain ⟨hg3, hm2, hs2⟩ := ih hg2 h
          exact ⟨hg3, hm2.trans hm, hs2.trans hs⟩

/-- C8: after any sequence of Add-Segment and Delete-Segment operations from
a fresh annotation session, the rendered segment list is sorted by ascending
start time (and stored back), and the exported document contains exactly
that sorted segment list together with the fixed workflow-status block
marking the segmentation, speaker-id and transcription workflows complete. -/
theorem segments_sorted_and_export (ty li di ai ci ilc spkrs : Json) (tc : String)
    (ops : List SegOp) (st' : AppState)
    (h : applySegOps (AppState.mk (mkMetadata ty li di ai ci ilc) spkrs (Json.arr []) tc) ops
           = Except.ok st') :
    ∃ ys : List Json,
      renderSegmentsBlock st' = Except.ok { st' with segments := Json.arr ys } ∧
      List.Pairwise startLE ys ∧ (∀ y ∈ ys, HasStartKey y) ∧
      buildFinalJson st'.metadata st'.speakers (Json.arr ys)
        = Except.ok (Json.obj [
            ("type", ty),
            ("value", Json.obj [
              ("languages", Json.arr [ilc]),
              ("languageInfo", li),
              ("domainInfo", di),
              ("conventionInfo", ci),
              ("annotatorInfo", ai),
              ("speakers", spkrs),
              ("segments", Json.arr ys),
              ("taskStatus", taskStatusJson)])]) := by
  obtain ⟨hg, hm, hsp⟩ := applySegOps_good ⟨[], rfl, by simp⟩ h
  obtain ⟨xs, hxs, hall⟩ := hg
  cases xs with
  | nil =>
      refine ⟨[], ?_, List.Pairwise.nil, by simp, ?_⟩
      · have heq : { st' with segments := Json.arr ([] : List Json) } = st' := by
          rw [← hxs]
        rw [heq]
        unfold renderSegmentsBlock
        rw [hxs]
        rfl
      · rw [hm, hsp]
        rfl
  | cons x rest =>
      obtain ⟨ys, hsort, hpair, _, hkeys⟩ := sortSegments_sorted hall
      refine ⟨ys, ?_, hpair, hkeys, ?_⟩
      · unfold renderSegmentsBlock
        rw [hxs]
        rw [if_neg (by simp [pyFalsy])]
        simp only [hsort, Except.bind, bind, Except.instMonad]
      · rw [hm, hsp]
        rfl

/-- Witness for C8: two out-of-order adds followed by a delete, from a fresh
session with one speaker. -/
theorem segments_sorted_and_export_witness :
    ∃ ys : List Json,
      renderSegmentsBlock
          (AppState.mk (mkMetadata Json.null Json.null Json.null Json.null Json.null (Json.str "en_NZ"))
            (Json.arr [Json.str "S1"])
            (Json.arr [mkSegment 1 2 "id1" "Speech" "Normal" (Json.str "en_NZ") "S1" "t1"]) "")
        = Except.ok { AppState.mk (mkMetadata Json.null Json.null Json.null Json.null Json.null (Json.str "en_NZ"))
            (Json.arr [Json.str "S1"])
            (Json.arr [mkSegment 1 2 "id1" "Speech" "Normal" (Json.str "en_NZ") "S1" "t1"]) "" with
            segments := Json.arr ys } ∧
      List.Pairwise startLE ys ∧ (∀ y ∈ ys, HasStartKey y) ∧
      buildFinalJson
          (AppState.mk (mkMetadata Json.null Json.null Json.null Json.null Json.null (Json.str "en_NZ"))
            (Json.arr [Json.str "S1"])
            (Json.arr [mkSegment 1 2 "id1" "Speech" "Normal" (Json.str "en_NZ") "S1" "t1"]) "").metadata
          (AppState.mk (mkMetadata Json.null Json.null Json.null Json.null Json.null (Json.str "en_NZ"))
            (Json.arr [Json.str "S1"])
            (Json.arr [mkSegment 1 2 "id1" "Speech" "Normal" (Json.str "en_NZ") "S1" "t1"]) "").speakers
          (Json.arr ys)
        = Except.ok (Json.obj [
            ("type", Json.null),
            ("value", Json.obj [
              ("languages", Json.arr [Json.str "en_NZ"]),
              ("languageInfo", Json.null),
              ("domainInfo", Json.null),
              ("conventionInfo", Json.null),
              ("annotatorInfo", Json.null),
              ("speakers", Json.arr [Json.str "S1"]),
              ("segments", Json.arr ys),
              ("taskStatus", taskStatusJson)])]) :=
  segments_sorted_and_export Json.null Json.null Json.null Json.null Json.null (Json.str "en_NZ")
    (Json.arr [Json.str "S1"]) ""
    [SegOp.add (some "S1") (some 2) (some 3) "id2" "Speech" "Normal" "t2",
     SegOp.add (some "S1") (some 1) (some 2) "id1" "Speech" "Normal" "t1",
     SegOp.del (Json.str "id2")]
    (AppState.mk (mkMetadata Json.null Json.null Json.null Json.null Json.null (Json.str "en_NZ"))
      (Json.arr [Json.str "S1"])
      (Json.arr [mkSegment 1 2 "id1" "Speech" "Normal" (Json.str "en_NZ") "S1" "t1"]) "")
    (by
      have hA : ¬ (3 : ℚ) ≤ 2 := by norm_num
      have hB : ¬ (2 : ℚ) ≤ 1 := by norm_num
      simp [applySegOps, applySegOp, addSegment, pyGetD, mkMetadata, lookupKey, pyAppend,
        deleteSegment, keepOthers, pySubscript, mkSegment, jsonBeq, Except.bind, bind,
        Except.instMonad, hA, hB])
